import Mathlib

/-!
Verification development for the Feishu / Cursor CLI bridge service
(`src/index.js`).  The JavaScript source is shallowly embedded: the inline
handlers of `callCursorCLI` (stdout record handling, throttled streaming,
close and timeout handlers), the task registry, the snapshot differ, the
message dispatcher and the `/send-file` HTTP endpoint become pure Lean
functions over explicit state.  JavaScript built-in string operations
(`split`, `trim`, `startsWith`, `includes`, `substring`) are embedded as
structural recursions over the character list of a `String`, so that every
definition evaluates inside the kernel.
-/

/-! ## JavaScript string primitives -/

/-- Embedding of the JavaScript truthiness test for a nullable string:
`null` and the empty string are falsy, every other string is truthy. -/
def jsTruthyS : Option String → Bool
  | none => false
  | some s => s != ""

/-- Embedding of the JavaScript truthiness test for a nullable number:
`null` and `0` are falsy. -/
def jsTruthyN : Option Nat → Bool
  | none => false
  | some n => n != 0

/-- Character-level splitter: `splitOnChar c l` splits the character list
`l` at every occurrence of `c`, embedding the behaviour of the JavaScript
`String.prototype.split` with a single-character separator (a trailing
separator yields a trailing empty segment). -/
def splitOnChar (c : Char) : List Char → List (List Char)
  | [] => [[]]
  | x :: xs =>
    if x = c then [] :: splitOnChar c xs
    else
      match splitOnChar c xs with
      | r :: rs => (x :: r) :: rs
      | [] => [[x]]

/-- Embedding of the JavaScript `text.split('\n')`. -/
def jsSplitNl (s : String) : List String :=
  (splitOnChar '\n' s.data).map (fun l => String.mk l)

/-- Embedding of the JavaScript `String.prototype.trim`: strip whitespace
from both ends. -/
def jsTrim (s : String) : String :=
  String.mk (((s.data.dropWhile Char.isWhitespace).reverse.dropWhile
    Char.isWhitespace).reverse)

/-- Embedding of the JavaScript `s.startsWith(pre)`. -/
def jsStartsWith (s pre : String) : Bool :=
  pre.data.isPrefixOf s.data

/-- Helper for `containsSub`: does `pat` occur as a contiguous sublist of
`l`? -/
def containsSubAux (pat : List Char) : List Char → Bool
  | [] => pat.isPrefixOf ([] : List Char)
  | c :: rest => pat.isPrefixOf (c :: rest) || containsSubAux pat rest

/-- Embedding of the JavaScript `s.includes(pat)`. -/
def containsSub (s pat : String) : Bool :=
  containsSubAux pat.data s.data

/-- Embedding of the JavaScript `s.substring(0, 50)` used for the task
label. -/
def jsSubstr50 (s : String) : String :=
  String.mk (s.data.take 50)

/-! ## Stream records

A decoded line of the child process standard output.  `JSON.parse`
produces an arbitrary JSON value; the stdout handler of `callCursorCLI`
(src/index.js lines 263-306) only reads the fields below, so a decoded
line is embedded as a record of exactly those fields, and a line that
fails to decode is `none` (the handler swallows the exception and drops
the line). -/

/-- Fields of a decoded stdout line that the handler reads:
`conversation_id`, `session_id`, `type`, `result`,
`message.content[0].text` (collapsed to `messageText`) and
`timestamp_ms`. -/
structure StreamRecord where
  conversation_id : Option String
  session_id : Option String
  type : Option String
  result : Option String
  messageText : Option String
  timestamp_ms : Option Nat
deriving DecidableEq

/-- Record with every field absent; concrete records are built from it by
structure update. -/
def emptyRecord : StreamRecord :=
  ⟨none, none, none, none, none, none⟩

/-- Mutable state of the stdout handler of `callCursorCLI`
(src/index.js lines 228-230): the `result` string, the accumulated
assistant text, and the captured conversation id. -/
structure CLIStreamState where
  result : String
  accumulatedText : String
  newConversationId : Option String
deriving DecidableEq

/-- Initial handler state: `result = ''`, `accumulatedText = ''`,
`newConversationId = null` (src/index.js lines 228-230). -/
def initCLIStreamState : CLIStreamState :=
  ⟨"", "", none⟩

/-- Embedding of the per-record body of the stdout data handler
(src/index.js lines 271-301): capture `conversation_id` when truthy,
fall back to `session_id` when nothing is known yet, record a truthy
`result` of a result record, and append or replace the accumulated
assistant text depending on `timestamp_ms` (the delta marker).  The call
`throttledStream(accumulatedText)` on the assistant branch only affects
delivery and is modelled separately by `throttledStream`. -/
def stdoutRecordStep (st : CLIStreamState) (j : StreamRecord) : CLIStreamState :=
  let st1 := if jsTruthyS j.conversation_id then
      { st with newConversationId := j.conversation_id } else st
  let st2 := if !jsTruthyS st1.newConversationId && jsTruthyS j.session_id then
      { st1 with newConversationId := j.session_id } else st1
  let st3 := if j.type == some "result" && jsTruthyS j.result then
      { st2 with result := j.result.getD "" } else st2
  if j.type == some "assistant" && jsTruthyS j.messageText then
    let chunkText := j.messageText.getD ""
    if jsTruthyN j.timestamp_ms then
      { st3 with accumulatedText := st3.accumulatedText ++ chunkText }
    else
      { st3 with accumulatedText := chunkText }
  else st3

/-- Processing of one decoded line: a line that failed to decode
(`none`) is dropped by the `catch` block (src/index.js lines 302-304). -/
def stdoutLineStep (st : CLIStreamState) : Option StreamRecord → CLIStreamState
  | some j => stdoutRecordStep st j
  | none => st

/-- Handler state after a sequence of decoded lines, starting from the
initial state. -/
def stdoutRecords (recs : List (Option StreamRecord)) : CLIStreamState :=
  recs.foldl stdoutLineStep initCLIStreamState

/-- Delta assistant record (carries the per-chunk `timestamp_ms`
marker). -/
def deltaRec (t : String) : StreamRecord :=
  { emptyRecord with
    type := some "assistant"
    messageText := some t
    timestamp_ms := some 1 }

/-- Full-text assistant record (no `timestamp_ms` marker). -/
def fullRec (t : String) : StreamRecord :=
  { emptyRecord with
    type := some "assistant"
    messageText := some t }

/-- Result record. -/
def resultRec (t : String) : StreamRecord :=
  { emptyRecord with
    type := some "result"
    result := some t }

/-! ### Projection lemmas for `stdoutRecordStep` -/

theorem stdoutRecordStep_accumulatedText (st : CLIStreamState) (j : StreamRecord) :
    (stdoutRecordStep st j).accumulatedText =
      (if j.type == some "assistant" && jsTruthyS j.messageText then
        (if jsTruthyN j.timestamp_ms then
          st.accumulatedText ++ j.messageText.getD ""
        else j.messageText.getD "")
      else st.accumulatedText) := by
  unfold stdoutRecordStep
  dsimp only
  (repeat' split) <;> rfl

theorem stdoutRecordStep_result (st : CLIStreamState) (j : StreamRecord) :
    (stdoutRecordStep st j).result =
      (if j.type == some "result" && jsTruthyS j.result then j.result.getD ""
       else st.result) := by
  unfold stdoutRecordStep
  dsimp only
  (repeat' split) <;> rfl

theorem stdoutRecordStep_newConversationId (st : CLIStreamState) (j : StreamRecord) :
    (stdoutRecordStep st j).newConversationId =
      (let a := if jsTruthyS j.conversation_id then j.conversation_id
                else st.newConversationId
       if !jsTruthyS a && jsTruthyS j.session_id then j.session_id else a) := by
  unfold stdoutRecordStep
  dsimp only
  (repeat' split) <;> rfl

/-! ## Last result and captured session id over a record sequence -/

/-- Text of the last result record with truthy text in the sequence
(later records overwrite `result`, src/index.js lines 285-288). -/
def lastResultText : List (Option StreamRecord) → Option String
  | [] => none
  | l :: rest =>
    match lastResultText rest with
    | some r => some r
    | none =>
      match l with
      | some j => if j.type == some "result" && jsTruthyS j.result then j.result
                  else none
      | none => none

/-- Last truthy `conversation_id` in the sequence. -/
def lastConvId : List (Option StreamRecord) → Option String
  | [] => none
  | l :: rest =>
    match lastConvId rest with
    | some c => some c
    | none =>
      match l with
      | some j => if jsTruthyS j.conversation_id then j.conversation_id else none
      | none => none

/-- First truthy `session_id` in the sequence. -/
def firstSessId : List (Option StreamRecord) → Option String
  | [] => none
  | some j :: rest => if jsTruthyS j.session_id then j.session_id
                      else firstSessId rest
  | none :: rest => firstSessId rest

theorem foldl_result_eq (recs : List (Option StreamRecord)) (st : CLIStreamState) :
    (recs.foldl stdoutLineStep st).result =
      (match lastResultText recs with
       | some r => r
       | none => st.result) := by
  induction recs generalizing st with
  | nil => rfl
  | cons l rest ih =>
    simp only [List.foldl_cons, lastResultText]
    rw [ih]
    cases hl : lastResultText rest with
    | some r => simp
    | none =>
      cases l with
      | none => simp [stdoutLineStep]
      | some j =>
        simp only [stdoutLineStep]
        rw [stdoutRecordStep_result]
        by_cases hc : (j.type == some "result" && jsTruthyS j.result) = true
        · rcases hr : j.result with _ | r
          · rw [hr] at hc; simp [jsTruthyS] at hc
          · have hc' := hc
            rw [hr] at hc'
            simp only [Bool.and_eq_true, beq_iff_eq] at hc'
            simp [hr, hc'.1, hc'.2]
        · simp [hc]

theorem lastResultText_ne_empty (recs : List (Option StreamRecord)) (r : String)
    (h : lastResultText recs = some r) : r ≠ "" := by
  induction recs with
  | nil => simp [lastResultText] at h
  | cons l rest ih =>
    simp only [lastResultText] at h
    cases hl : lastResultText rest with
    | some r' =>
      rw [hl] at h
      exact ih (hl.trans (by simpa using h))
    | none =>
      rw [hl] at h
      cases l with
      | none => simp at h
      | some j =>
        simp only at h
        by_cases hc : (j.type == some "result" && jsTruthyS j.result) = true
        · rw [if_pos hc] at h
          rcases hr : j.result with _ | r'
          · rw [hr] at h; simp at h
          · rw [hr] at h
            rw [hr] at hc
            simp only [Bool.and_eq_true, jsTruthyS] at hc
            have : r' ≠ "" := by simpa using hc.2
            cases h; assumption
        · rw [if_neg hc] at h; simp at h

theorem foldl_newConversationId (recs : List (Option StreamRecord))
    (st : CLIStreamState) :
    (recs.foldl stdoutLineStep st).newConversationId =
      (match lastConvId recs with
       | some c => some c
       | none =>
         if jsTruthyS st.newConversationId then st.newConversationId
         else
           match firstSessId recs with
           | some s => some s
           | none => st.newConversationId) := by
  induction recs generalizing st with
  | nil =>
    simp only [List.foldl_nil, lastConvId, firstSessId]
    split <;> rfl
  | cons l rest ih =>
    simp only [List.foldl_cons]
    rw [ih]
    cases l with
    | none =>
      simp only [stdoutLineStep, lastConvId, firstSessId]
      cases lastConvId rest <;> rfl
    | some j =>
      simp only [stdoutLineStep]
      cases hcv : jsTruthyS j.conversation_id with
      | true =>
        obtain ⟨c, hc, hcne⟩ : ∃ c, j.conversation_id = some c ∧ jsTruthyS (some c) = true := by
          cases hjc : j.conversation_id with
          | none => rw [hjc] at hcv; simp [jsTruthyS] at hcv
          | some c => exact ⟨c, rfl, by rw [hjc] at hcv; exact hcv⟩
        have hid : (stdoutRecordStep st j).newConversationId = some c := by
          rw [stdoutRecordStep_newConversationId]
          simp only [hcv, if_true, hc, hcne, Bool.not_true, Bool.false_and,
            Bool.false_eq_true, if_false]
        rw [hid]
        simp only [lastConvId, hc, hcv, if_true, hcne]
        cases lastConvId rest <;> simp [hcne]
      | false =>
        have hid0 : (if jsTruthyS j.conversation_id then j.conversation_id
            else st.newConversationId) = st.newConversationId := by
          rw [hcv]; simp
        cases hsv : jsTruthyS j.session_id with
        | false =>
          have hid : (stdoutRecordStep st j).newConversationId =
              st.newConversationId := by
            rw [stdoutRecordStep_newConversationId]
            simp only [hid0, hsv, Bool.and_false, Bool.false_eq_true, if_false]
          rw [hid]
          simp only [lastConvId, firstSessId, hcv, hsv, Bool.false_eq_true,
            if_false]
          cases lastConvId rest <;> rfl
        | true =>
          obtain ⟨s, hs, hsne⟩ : ∃ s, j.session_id = some s ∧ jsTruthyS (some s) = true := by
            cases hjs : j.session_id with
            | none => rw [hjs] at hsv; simp [jsTruthyS] at hsv
            | some s => exact ⟨s, rfl, by rw [hjs] at hsv; exact hsv⟩
          cases hst : jsTruthyS st.newConversationId with
          | true =>
            have hid : (stdoutRecordStep st j).newConversationId =
                st.newConversationId := by
              rw [stdoutRecordStep_newConversationId]
              simp only [hid0, hst, hsv, Bool.not_true, Bool.false_and,
                Bool.false_eq_true, if_false]
            rw [hid]
            simp only [lastConvId, firstSessId, hcv, Bool.false_eq_true,
              if_false, hst]
            cases lastConvId rest <;> simp [hst]
          | false =>
            have hid : (stdoutRecordStep st j).newConversationId = some s := by
              rw [stdoutRecordStep_newConversationId]
              simp only [hid0, hst, hsv, Bool.not_false, Bool.true_and, if_true,
                hs, hsne]
            rw [hid]
            simp only [lastConvId, firstSessId, hcv, Bool.false_eq_true,
              if_false, hst, hs, hsv, if_true, hsne]
            cases lastConvId rest <;> simp [hst, hsne]

/-! ## Close handler and timeout handler of `callCursorCLI` -/

/-- Outcome of the promise of `callCursorCLI`: `resolved` (the task
yields text) or `rejected` (an Error is thrown to the caller). -/
inductive CloseOutcome where
  | resolved (text : String)
  | rejected (message : String)
deriving DecidableEq

/-- Effect of the close handler: the settlement it attempts and the
arguments of the `saveSession` call, when one is made. -/
structure CloseEffect where
  outcome : CloseOutcome
  savedSession : Option (String × String)
deriving DecidableEq

/-- JavaScript template interpolation of a nullable number
(`null` prints as the string null). -/
def jsCodeString : Option Nat → String
  | none => "null"
  | some n => toString n

/-- Embedding of the close handler of the child process
(src/index.js lines 312-341): on `wasKilled` reject STOPPED_BY_USER and
save nothing; otherwise save the session when both `chatId` and
`newConversationId` are truthy, then settle with `result`, else the
accumulated text, else the sentinel on exit code 0, else reject carrying
the exit code.  Exit code `none` embeds a null exit code (process killed
by a signal). -/
def closeHandler (wasKilled : Bool) (chatId : Option String)
    (st : CLIStreamState) (code : Option Nat) : CloseEffect :=
  if wasKilled then ⟨CloseOutcome.rejected "STOPPED_BY_USER", none⟩
  else
    let saved := if jsTruthyS chatId && jsTruthyS st.newConversationId then
        some (chatId.getD "", st.newConversationId.getD "") else none
    let finalResult := if st.result != "" then st.result else st.accumulatedText
    if finalResult != "" then ⟨CloseOutcome.resolved finalResult, saved⟩
    else if code == some 0 then ⟨CloseOutcome.resolved "任务完成", saved⟩
    else ⟨CloseOutcome.rejected ("命令退出码: " ++ jsCodeString code), saved⟩

/-- Effect of the hard timeout timer callback
(src/index.js lines 360-366). -/
structure TimeoutFire where
  killedChild : Bool
  removedTask : Bool
  rejection : Option String
deriving DecidableEq

/-- Embedding of the timeout timer callback (src/index.js lines 360-366):
when the child has not already been killed, kill it, remove the task
entry and reject with the timeout error.  The pair component is the value
of the `wasKilled` flag after the callback: the callback never writes
that flag (only `markAsKilled`, called by `stopTask`, does). -/
def timeoutHandler (childKilled wasKilled : Bool) : TimeoutFire × Bool :=
  if !childKilled then
    (⟨true, true, some "命令执行超时（20分钟）"⟩, wasKilled)
  else (⟨false, false, none⟩, wasKilled)

/-! ## Claim C3 -/

/-- Claim C3: in the assistant-record handling, a record with a truthy
`timestamp_ms` delta marker appends its text to the running accumulation
while a record without the marker replaces it outright; in particular
delta records He and llo accumulate to Hello, and full-text records Hi
then Hi there end at Hi there. -/
theorem assistant_delta_appends_full_replaces
    (st : CLIStreamState) (j : StreamRecord) (t : String)
    (hty : j.type = some "assistant") (htx : j.messageText = some t)
    (hne : t ≠ "") :
    (jsTruthyN j.timestamp_ms = true →
      (stdoutRecordStep st j).accumulatedText = st.accumulatedText ++ t)
    ∧ (jsTruthyN j.timestamp_ms = false →
      (stdoutRecordStep st j).accumulatedText = t)
    ∧ (stdoutRecords [some (deltaRec "He"),
        some (deltaRec "llo")]).accumulatedText = "Hello"
    ∧ (stdoutRecords [some (fullRec "Hi"),
        some (fullRec "Hi there")]).accumulatedText = "Hi there" := by
  refine ⟨?_, ?_, by decide, by decide⟩
  · intro h
    rw [stdoutRecordStep_accumulatedText]
    simp [hty, htx, jsTruthyS, hne, h]
  · intro h
    rw [stdoutRecordStep_accumulatedText]
    simp [hty, htx, jsTruthyS, hne, h]

/-- Witness for C3: the general statement applied at the initial state
and a concrete delta record. -/
theorem assistant_delta_appends_full_replaces_witness :
    (stdoutRecordStep initCLIStreamState (deltaRec "He")).accumulatedText =
      "".append "He" :=
  (assistant_delta_appends_full_replaces initCLIStreamState (deltaRec "He")
    "He" (by decide) (by decide) (by decide)).1 (by decide)

/-! ## Claim C4 -/

/-- Claim C4: for a non-cancelled task, the close handler resolves with
the text of the last truthy result record when one was seen (taking
priority over the accumulation); otherwise with the accumulated text when
non-empty; otherwise with the sentinel on exit code 0; otherwise it
rejects with an error carrying the exit code. -/
theorem close_handler_final_response (recs : List (Option StreamRecord))
    (chatId : Option String) (code : Option Nat) :
    (∀ r, lastResultText recs = some r →
      (closeHandler false chatId (stdoutRecords recs) code).outcome =
        CloseOutcome.resolved r)
    ∧ (lastResultText recs = none →
        (stdoutRecords recs).accumulatedText ≠ "" →
      (closeHandler false chatId (stdoutRecords recs) code).outcome =
        CloseOutcome.resolved (stdoutRecords recs).accumulatedText)
    ∧ (lastResultText recs = none →
        (stdoutRecords recs).accumulatedText = "" → code = some 0 →
      (closeHandler false chatId (stdoutRecords recs) code).outcome =
        CloseOutcome.resolved "任务完成")
    ∧ (lastResultText recs = none →
        (stdoutRecords recs).accumulatedText = "" → code ≠ some 0 →
      (closeHandler false chatId (stdoutRecords recs) code).outcome =
        CloseOutcome.rejected ("命令退出码: " ++ jsCodeString code)) := by
  have hres : (stdoutRecords recs).result =
      (match lastResultText recs with
       | some r => r
       | none => "") := foldl_result_eq recs initCLIStreamState
  refine ⟨?_, ?_, ?_, ?_⟩
  · intro r hr
    have hne : r ≠ "" := lastResultText_ne_empty recs r hr
    rw [hr] at hres
    unfold closeHandler
    simp only [Bool.false_eq_true, if_false, hres]
    have : (r != "") = true := by simpa using hne
    simp [this]
  · intro hr hacc
    rw [hr] at hres
    unfold closeHandler
    simp only [Bool.false_eq_true, if_false, hres]
    have : ((stdoutRecords recs).accumulatedText != "") = true := by
      simpa using hacc
    simp [this]
  · intro hr hacc hcode
    rw [hr] at hres
    unfold closeHandler
    simp only [Bool.false_eq_true, if_false, hres, hacc, hcode]
    simp
  · intro hr hacc hcode
    rw [hr] at hres
    unfold closeHandler
    simp only [Bool.false_eq_true, if_false, hres, hacc]
    have : (code == some 0) = false := by
      cases code with
      | none => rfl
      | some n =>
        have : n ≠ 0 := fun h => hcode (by rw [h])
        simpa using this
    simp [this]

/-- Witness for C4: a result record DONE arriving after a delta record
wins over the accumulation. -/
theorem close_handler_final_response_witness :
    (closeHandler false none
      (stdoutRecords [some (deltaRec "partial"), some (resultRec "DONE")])
      (some 0)).outcome = CloseOutcome.resolved "DONE" :=
  (close_handler_final_response
    [some (deltaRec "partial"), some (resultRec "DONE")] none (some 0)).1
    "DONE" (by decide)

/-! ## Claim C8 -/

/-- Session-id record (carries only the fallback `session_id` field). -/
def sessRec (s : String) : StreamRecord :=
  { emptyRecord with session_id := some s }

/-- Conversation-id record (carries the `conversation_id` field). -/
def convRec (c : String) : StreamRecord :=
  { emptyRecord with conversation_id := some c }

/-- Counterexample to claim C8: in a stream whose records carry the
identifier in the `session_id` field, the captured id is the FIRST one
(A), not the last one (B): the guard on the fallback branch only fires
while no id is known yet. -/
theorem session_id_capture_not_last_wins :
    (stdoutRecords [some (sessRec "A"),
      some (sessRec "B")]).newConversationId = some "A"
    ∧ "A" ≠ "B" := by
  constructor
  · decide
  · decide

/-- Claim C8 amended: the captured id is the last truthy
`conversation_id` of the stream when one appears; otherwise it is the
first truthy `session_id`; a later `session_id` never overwrites an
earlier capture. -/
theorem captured_id_last_conv_or_first_sess
    (recs : List (Option StreamRecord)) :
    (stdoutRecords recs).newConversationId =
      (match lastConvId recs with
       | some c => some c
       | none => firstSessId recs) := by
  have h := foldl_newConversationId recs initCLIStreamState
  unfold stdoutRecords
  rw [h]
  cases lastConvId recs <;> cases hf : firstSessId recs <;>
    simp [initCLIStreamState, jsTruthyS, hf]

/-! ## Claim C2 -/

/-- Counterexample to claim C2: a task hits the hard timeout (the timer
kills the child and rejects with the timeout error), a session id S had
been observed in the stream, and when the killed child subsequently
closes, the close handler still calls saveSession with (chat, S): the
timeout path does not suppress the save, because the timer callback never
sets the `wasKilled` flag. -/
theorem timed_out_task_still_saves_session :
    (timeoutHandler false false).1.rejection = some "命令执行超时（20分钟）"
    ∧ (timeoutHandler false false).2 = false
    ∧ (closeHandler (timeoutHandler false false).2 (some "chat")
        (stdoutRecords [some (sessRec "S")]) none).savedSession =
      some ("chat", "S") := by
  refine ⟨by decide, by decide, by decide⟩

/-- Claim C2 amended: after the hard timeout fires (rejecting with the
timeout error and killing the child), the `wasKilled` flag is still
false, so the close handler of the killed process saves the session
whenever the chat id and an observed session id are truthy; only the
user-stop path (which sets `wasKilled`) suppresses the save. -/
theorem timeout_then_close_saves_observed_session
    (c v : String) (st : CLIStreamState) (code : Option Nat)
    (hc : c ≠ "") (hv : st.newConversationId = some v) (hvne : v ≠ "") :
    (closeHandler (timeoutHandler false false).2 (some c) st code).savedSession =
      some (c, v) := by
  have hwk : (timeoutHandler false false).2 = false := by decide
  rw [hwk]
  unfold closeHandler
  have h1 : jsTruthyS (some c) = true := by simpa [jsTruthyS] using hc
  have h2 : jsTruthyS (some v) = true := by simpa [jsTruthyS] using hvne
  simp only [Bool.false_eq_true, if_false, hv, h1, h2, Bool.and_self, if_true,
    Option.getD_some]
  (repeat' split) <;> rfl

/-- Witness for the amended C2 theorem at concrete values. -/
theorem timeout_then_close_saves_observed_session_witness :
    (closeHandler (timeoutHandler false false).2 (some "chat")
      ⟨"", "", some "S"⟩ none).savedSession = some ("chat", "S") :=
  timeout_then_close_saves_observed_session "chat" "S" ⟨"", "", some "S"⟩
    none (by decide) rfl (by decide)

/-! ## Claim C1: task registration in `callCursorCLI` -/

/-- Entry of the `activeTasks` map (src/index.js line 95 and lines
213-219): the child process handle (embedded as a numeric process id),
the truncated prompt label, and the start time. -/
structure ActiveTask where
  child : Nat
  prompt : String
  startTime : Nat
deriving DecidableEq

/-- The `activeTasks` map, keyed by chat id. -/
def TaskMap : Type := String → Option ActiveTask

/-- Empty task map (no active task for any chat). -/
def noTasks : TaskMap := fun _ => none

/-- Embedding of the task registration performed unconditionally by
`callCursorCLI` (src/index.js lines 212-219): when `chatId` is truthy,
`activeTasks.set(chatId, {child, prompt: prompt.substring(0,50),
startTime})` — a plain Map.set, replacing any existing entry; there is no
busy check and no failure path. -/
def registerActiveTask (tasks : TaskMap) (chatId : Option String)
    (child : Nat) (prompt : String) (startTime : Nat) : TaskMap :=
  if jsTruthyS chatId then
    fun k => if k == chatId.getD "" then
        some ⟨child, jsSubstr50 prompt, startTime⟩
      else tasks k
  else tasks

/-- Counterexample to claim C1: with a task already registered for chat
c, a second spawn for the same key does not fail and does register a new
Task — the fresh entry (child 2) replaces the old one (child 1).  No
ChannelBusyError value exists anywhere in the source. -/
theorem second_spawn_registers_new_task :
    (registerActiveTask noTasks (some "c") 1 "p1" 0) "c" =
      some ⟨1, "p1", 0⟩
    ∧ (registerActiveTask (registerActiveTask noTasks (some "c") 1 "p1" 0)
        (some "c") 2 "p2" 5) "c" = some ⟨2, "p2", 5⟩
    ∧ (⟨2, "p2", 5⟩ : ActiveTask) ≠ ⟨1, "p1", 0⟩ := by
  refine ⟨by decide, by decide, by decide⟩

/-- Claim C1 amended: spawning never fails and performs no busy check:
for a truthy chat id the new Task is always registered, overwriting any
existing entry for that key, and entries of other keys are untouched; at
most one entry per key exists only because the map assignment replaces
the previous one (which is lost while its process may still run). -/
theorem spawn_always_registers_overwriting
    (tasks : TaskMap) (c : String) (child : Nat) (prompt : String)
    (startTime : Nat) (hc : c ≠ "") :
    (registerActiveTask tasks (some c) child prompt startTime) c =
      some ⟨child, jsSubstr50 prompt, startTime⟩
    ∧ (∀ k, k ≠ c →
        (registerActiveTask tasks (some c) child prompt startTime) k =
          tasks k) := by
  have h1 : jsTruthyS (some c) = true := by simpa [jsTruthyS] using hc
  unfold registerActiveTask
  rw [h1]
  simp only [if_true, Option.getD_some]
  constructor
  · simp
  · intro k hk
    simp [hk]

/-- Witness for the amended C1 theorem at concrete values. -/
theorem spawn_always_registers_overwriting_witness :
    (registerActiveTask noTasks (some "c") 7 "hello" 3) "c" =
      some ⟨7, jsSubstr50 "hello", 3⟩ :=
  (spawn_always_registers_overwriting noTasks "c" 7 "hello" 3
    (by decide)).1

/-! ## Claim C5: chunk handling of the stdout data events -/

/-- Embedding of the line extraction of one stdout data event
(src/index.js line 268): `text.split('\n').filter(line => line.trim())`
— every segment whose trim is non-empty is handed to `JSON.parse`,
including a trailing fragment not terminated by a newline. -/
def chunkLines (chunk : String) : List String :=
  (jsSplitNl chunk).filter (fun l => jsTrim l != "")

/-- Lines handed to the decoder over a whole sequence of data events,
in order: each chunk is split independently (the handler keeps no buffer
between events). -/
def stdoutLinesOfChunks (chunks : List String) : List String :=
  chunks.foldl (fun acc c => acc ++ chunkLines c) []

/-- Concatenation of a list of strings (the byte stream the chunk
sequence carries). -/
def joinChunks (chunks : List String) : String :=
  chunks.foldl (fun acc c => acc ++ c) ""

/-- Definition following the words of the spec, for comparison with
`stdoutLinesOfChunks`: a parser that buffers partial lines across chunk
boundaries and decodes only complete newline-terminated lines would hand
over exactly the newline-terminated (non-blank) lines of the
concatenated stream, independently of the chunk boundaries. -/
def bufferedCompleteLines (chunks : List String) : List String :=
  ((jsSplitNl (joinChunks chunks)).dropLast).filter (fun l => jsTrim l != "")

/-- Counterexample to claim C5: the chunk sequence ab, c-newline carries
the same bytes as the single chunk abc-newline, but the code hands the
decoder the fragments ab and c (the first not newline-terminated) where
a buffering parser would hand the single complete line abc; the decoded
line sequence, hence the classification, depends on the chunk
boundaries. -/
theorem chunk_split_not_buffered :
    stdoutLinesOfChunks ["ab", "c\n"] = ["ab", "c"]
    ∧ bufferedCompleteLines ["ab", "c\n"] = ["abc"]
    ∧ joinChunks ["ab", "c\n"] = joinChunks ["abc\n"]
    ∧ stdoutLinesOfChunks ["abc\n"] = ["abc"]
    ∧ (["ab", "c"] : List String) ≠ ["abc"] := by
  refine ⟨by decide, by decide, by decide, by decide, by decide⟩

/-- Claim C5 amended: the stdout handler performs no buffering across
chunk boundaries: the lines handed to the decoder for a chunk sequence
are the per-chunk segments concatenated in order (processing is
memoryless in the chunk structure), and a trailing fragment without a
newline is itself handed to the decoder, as witnessed by the single
chunk ab. -/
theorem stdout_lines_memoryless (cs ds : List String) :
    stdoutLinesOfChunks (cs ++ ds) =
      stdoutLinesOfChunks cs ++ stdoutLinesOfChunks ds
    ∧ chunkLines "ab" = ["ab"] := by
  constructor
  · have key : ∀ (l : List String) (acc : List String),
        l.foldl (fun acc c => acc ++ chunkLines c) acc =
          acc ++ l.foldl (fun acc c => acc ++ chunkLines c) [] := by
      intro l
      induction l with
      | nil => intro acc; simp
      | cons c rest ih =>
        intro acc
        simp only [List.foldl_cons, List.nil_append]
        rw [ih, ih (chunkLines c), List.append_assoc]
    unfold stdoutLinesOfChunks
    rw [List.foldl_append, key ds]
  · decide

/-! ## Claim C9: snapshot comparison -/

/-- Per-file metadata recorded by `getFileSnapshot`
(src/index.js lines 745-749): size and modification time. -/
structure FileInfo where
  size : Nat
  mtime : Nat
deriving DecidableEq

/-- Entry of the `newFiles` / `modifiedFiles` output of
`compareSnapshots` (src/index.js lines 776-788).  The source also stores
a workDir-relative display path derived from the full path; only the
full path and size are retained here since the relative form is
display-only. -/
structure DiffEntry where
  fullPath : String
  size : Nat
deriving DecidableEq

/-- Embedding of `compareSnapshots` (src/index.js lines 767-793): iterate
the entries of `after` in order; a path absent from `before` is appended
to `newFiles`; a path present in both is appended to `modifiedFiles` when
`after.mtime > before.mtime` or the sizes differ; everything else —
including paths only in `before` — is ignored.  A snapshot is an
association list mirroring the iteration order of the JavaScript Map. -/
def compareSnapshots (before after : List (String × FileInfo)) :
    List DiffEntry × List DiffEntry :=
  after.foldl (fun acc pa =>
    match List.lookup pa.1 before with
    | none => (acc.1 ++ [⟨pa.1, pa.2.size⟩], acc.2)
    | some b =>
      if pa.2.mtime > b.mtime || pa.2.size != b.size then
        (acc.1, acc.2 ++ [⟨pa.1, pa.2.size⟩])
      else acc)
    ([], [])

/-- Counterexample to claim C9: the path /x is present in both snapshots
with the same size but a DIFFERENT modified time (it moved backwards,
5 to 3); the claim requires /x to be reported as changed, but
`compareSnapshots` reports nothing because its condition is a strict
increase of mtime, not inequality. -/
theorem compare_snapshots_mtime_decrease_unreported :
    compareSnapshots [("/x", ⟨10, 5⟩)] [("/x", ⟨10, 3⟩)] = ([], [])
    ∧ List.lookup "/x" [("/x", (⟨10, 5⟩ : FileInfo))] = some ⟨10, 5⟩
    ∧ List.lookup "/x" [("/x", (⟨10, 3⟩ : FileInfo))] = some ⟨10, 3⟩
    ∧ (5 : Nat) ≠ 3 := by
  refine ⟨by decide, by decide, by decide, by decide⟩

/-- Claim C9 amended: added is exactly the after-entries whose path has
no entry in before (in iteration order), and changed is exactly the
after-entries present in both whose mtime strictly increased or whose
size differs — an mtime that differs by decreasing with equal size is
not reported; paths only in before are ignored; the A/B example of the
claim holds as stated. -/
theorem compare_snapshots_characterization
    (before after : List (String × FileInfo)) (t0 t1 : Nat) :
    (compareSnapshots before after).1 =
      (after.filter (fun pa => (List.lookup pa.1 before).isNone)).map
        (fun pa => ⟨pa.1, pa.2.size⟩)
    ∧ (compareSnapshots before after).2 =
      (after.filter (fun pa =>
        match List.lookup pa.1 before with
        | some b => pa.2.mtime > b.mtime || pa.2.size != b.size
        | none => false)).map (fun pa => ⟨pa.1, pa.2.size⟩)
    ∧ compareSnapshots [("/x", ⟨10, t0⟩)]
        [("/x", ⟨10, t0⟩), ("/y", ⟨5, t1⟩)] = ([⟨"/y", 5⟩], []) := by
  have key : ∀ (l : List (String × FileInfo)) (acc : List DiffEntry × List DiffEntry),
      l.foldl (fun acc pa =>
        match List.lookup pa.1 before with
        | none => (acc.1 ++ [⟨pa.1, pa.2.size⟩], acc.2)
        | some b =>
          if pa.2.mtime > b.mtime || pa.2.size != b.size then
            (acc.1, acc.2 ++ [⟨pa.1, pa.2.size⟩])
          else acc) acc =
      (acc.1 ++ (l.filter (fun pa => (List.lookup pa.1 before).isNone)).map
          (fun pa => ⟨pa.1, pa.2.size⟩),
       acc.2 ++ (l.filter (fun pa =>
          match List.lookup pa.1 before with
          | some b => pa.2.mtime > b.mtime || pa.2.size != b.size
          | none => false)).map (fun pa => ⟨pa.1, pa.2.size⟩)) := by
    intro l
    induction l with
    | nil => intro acc; simp
    | cons pa rest ih =>
      intro acc
      simp only [List.foldl_cons]
      cases hb : List.lookup pa.1 before with
      | none =>
        rw [ih]
        simp [List.filter_cons, hb]
      | some b =>
        by_cases hcond : (decide (pa.2.mtime > b.mtime) || pa.2.size != b.size) = true
        · rw [ih]
          simp [List.filter_cons, hb, hcond]
        · rw [ih]
          simp [List.filter_cons, hb, hcond]
  refine ⟨?_, ?_, ?_⟩
  · unfold compareSnapshots
    rw [key after ([], [])]
    simp
  · unfold compareSnapshots
    rw [key after ([], [])]
    simp
  · unfold compareSnapshots
    simp [List.foldl_cons, List.lookup]

/-! ## Claim C6: throttled streaming -/

/-- State of the stream throttle of `callCursorCLI`
(src/index.js lines 233-237): time of the last delivery, the pending
timer — fire time and the text it will flush — and the list of
(time, text) deliveries chained onto `streamUpdatePromise` so far.
A timer object that has already been cleared or has fired is
behaviourally dead in the source (clearTimeout on it is a no-op), so the
pending timer is embedded as `none` once cleared or fired. -/
structure ThrottleState where
  lastStreamTime : Nat
  streamTimer : Option (Nat × String)
  deliveries : List (Nat × String)
deriving DecidableEq

/-- Initial throttle state: `lastStreamTime = 0`, no timer, nothing
delivered. -/
def initThrottle : ThrottleState :=
  ⟨0, none, []⟩

/-- STREAM_INTERVAL (src/index.js line 237). -/
def STREAM_INTERVAL : Nat := 1500

/-- Embedding of `throttledStream` (src/index.js lines 249-261) invoked
at clock time `now` with `text`: return unchanged when `onStream` is
absent or the text is empty; otherwise clear the pending timer, deliver
immediately when the interval has elapsed since the last delivery
(`flushStream` appends the delivery and sets `lastStreamTime = now`),
else schedule a timer for the remaining wait carrying this text. -/
def throttledStream (onStream : Bool) (st : ThrottleState) (now : Nat)
    (text : String) : ThrottleState :=
  if !onStream || text == "" then st
  else if now - st.lastStreamTime ≥ STREAM_INTERVAL then
    { lastStreamTime := now
      streamTimer := none
      deliveries := st.deliveries ++ [(now, text)] }
  else
    { st with
      streamTimer :=
        some (now + (STREAM_INTERVAL - (now - st.lastStreamTime)), text) }

/-- Embedding of the pending timer firing: the scheduled callback runs
`flushStream(text)` at the fire time (src/index.js line 259), which
delivers when `onStream` and the text are truthy and records the flush
time as the last delivery time. -/
def fireTimer (onStream : Bool) (st : ThrottleState) : ThrottleState :=
  match st.streamTimer with
  | none => st
  | some (ft, text) =>
    if onStream && text != "" then
      { lastStreamTime := ft
        streamTimer := none
        deliveries := st.deliveries ++ [(ft, text)] }
    else { st with streamTimer := none }

/-- Claim C6: five pushes within 200ms against the 1500ms interval,
starting from an idle sink, produce exactly one immediate delivery (the
first push) and exactly one scheduled delivery carrying the last pushed
value; the burst never yields more than two deliveries and no
intermediate value is delivered separately. -/
theorem throttle_burst_two_deliveries
    (t0 t1 t2 t3 t4 : Nat) (x0 x1 x2 x3 x4 : String)
    (hidle : STREAM_INTERVAL ≤ t0)
    (h01 : t0 ≤ t1) (h12 : t1 ≤ t2) (h23 : t2 ≤ t3) (h34 : t3 ≤ t4)
    (hburst : t4 ≤ t0 + 200)
    (hx0 : x0 ≠ "") (hx1 : x1 ≠ "") (hx2 : x2 ≠ "") (hx3 : x3 ≠ "")
    (hx4 : x4 ≠ "") :
    (throttledStream true (throttledStream true (throttledStream true
      (throttledStream true (throttledStream true initThrottle t0 x0)
        t1 x1) t2 x2) t3 x3) t4 x4).deliveries = [(t0, x0)]
    ∧ (fireTimer true (throttledStream true (throttledStream true
        (throttledStream true (throttledStream true
          (throttledStream true initThrottle t0 x0)
        t1 x1) t2 x2) t3 x3) t4 x4)).deliveries =
      [(t0, x0), (t0 + STREAM_INTERVAL, x4)]
    ∧ (fireTimer true (throttledStream true (throttledStream true
        (throttledStream true (throttledStream true
          (throttledStream true initThrottle t0 x0)
        t1 x1) t2 x2) t3 x3) t4 x4)).streamTimer = none := by
  have e0 : throttledStream true initThrottle t0 x0 =
      ⟨t0, none, [(t0, x0)]⟩ := by
    unfold throttledStream initThrottle
    have hb : (x0 == "") = false := by simpa using hx0
    simp only [Bool.not_true, Bool.false_or, hb, Bool.false_eq_true, if_false]
    rw [if_pos (by simpa using hidle)]
    simp
  have sched : ∀ (ti : Nat) (xi : String) (tm : Option (Nat × String))
      (ds : List (Nat × String)), t0 ≤ ti → ti ≤ t0 + 200 → xi ≠ "" →
      throttledStream true ⟨t0, tm, ds⟩ ti xi =
        ⟨t0, some (t0 + STREAM_INTERVAL, xi), ds⟩ := by
    intro ti xi tm ds hge hle hxi
    unfold throttledStream
    have hb : (xi == "") = false := by simpa using hxi
    simp only [Bool.not_true, Bool.false_or, hb, Bool.false_eq_true, if_false]
    rw [if_neg (by unfold STREAM_INTERVAL at *; omega)]
    have : ti + (STREAM_INTERVAL - (ti - t0)) = t0 + STREAM_INTERVAL := by
      unfold STREAM_INTERVAL at *; omega
    rw [this]
  rw [e0]
  rw [sched t1 x1 none [(t0, x0)] h01 (by omega) hx1]
  rw [sched t2 x2 _ [(t0, x0)] (by omega) (by omega) hx2]
  rw [sched t3 x3 _ [(t0, x0)] (by omega) (by omega) hx3]
  rw [sched t4 x4 _ [(t0, x0)] (by omega) hburst hx4]
  refine ⟨rfl, ?_, ?_⟩
  · unfold fireTimer
    have hb : (x4 != "") = true := by simpa using hx4
    simp [hb]
  · unfold fireTimer
    have hb : (x4 != "") = true := by simpa using hx4
    simp [hb]

/-- Witness for C6 at concrete times and texts. -/
theorem throttle_burst_two_deliveries_witness :
    (fireTimer true (throttledStream true (throttledStream true
      (throttledStream true (throttledStream true
        (throttledStream true initThrottle 10000 "a")
      10050 "b") 10100 "c") 10150 "d") 10200 "e")).deliveries =
    [(10000, "a"), (10000 + STREAM_INTERVAL, "e")] :=
  (throttle_burst_two_deliveries 10000 10050 10100 10150 10200
    "a" "b" "c" "d" "e" (by decide) (by decide) (by decide) (by decide)
    (by decide) (by decide) (by decide) (by decide) (by decide) (by decide)
    (by decide)).2.1

/-! ## Claim C7: chained delivery via `streamUpdatePromise` -/

/-- One delivery performed by `flushStream` (src/index.js lines 239-247):
the text of the `onStream` call, its start and finish times, and whether
the external sink call succeeded.  Deliveries are chained onto
`streamUpdatePromise` by `.then`, so a call starts when the previous
settles; the trailing `.catch(() => {})` swallows a failure so the chain
continues either way. -/
structure SinkCall where
  text : String
  start : Nat
  finish : Nat
  ok : Bool
deriving DecidableEq

/-- Execution of the `streamUpdatePromise` chain: the queued texts are
the successive `flushStream` arguments in issuance order; `dur k` and
`ok k` give the duration and outcome of the k-th external `onStream`
call.  Each call starts exactly when the previous one settles
(`.then` semantics), and the chain continues past failures
(`.catch` semantics). -/
def runChain (dur : Nat → Nat) (ok : Nat → Bool) :
    Nat → Nat → List String → List SinkCall
  | _, _, [] => []
  | k, t, x :: rest =>
    ⟨x, t, t + dur k, ok k⟩ :: runChain dur ok (k + 1) (t + dur k) rest

/-- Claim C7: deliveries for one task are strictly serialized in
issuance order — the chain performs exactly the queued texts in order
(none dropped, even after a failed call, which is swallowed), and each
delivery starts exactly when the previous one finishes, so delivery N+1
never begins before delivery N has completed. -/
theorem chained_deliveries_serialized (dur : Nat → Nat) (ok : Nat → Bool)
    (k t : Nat) (texts : List String) :
    (runChain dur ok k t texts).map SinkCall.text = texts
    ∧ List.Chain' (fun a b => a.finish = b.start)
        (runChain dur ok k t texts)
    ∧ (runChain dur ok k t texts).length = texts.length := by
  induction texts generalizing k t with
  | nil => exact ⟨rfl, List.chain'_nil, rfl⟩
  | cons x rest ih =>
    obtain ⟨hmap, hchain, hlen⟩ := ih (k + 1) (t + dur k)
    refine ⟨by simp [runChain, hmap], ?_, by simp [runChain, hlen]⟩
    unfold runChain
    cases hr : runChain dur ok (k + 1) (t + dur k) rest with
    | nil => simp
    | cons c cs =>
      rw [hr] at hchain
      refine List.Chain'.cons ?_ hchain
      have : c ∈ runChain dur ok (k + 1) (t + dur k) rest := by
        rw [hr]; exact List.mem_cons_self c cs
      have hstart : ∀ (rest : List String) (k t : Nat) (c : SinkCall) (cs : List SinkCall),
          runChain dur ok k t rest = c :: cs → c.start = t := by
        intro rest
        cases rest with
        | nil => intro k t c cs h; simp [runChain] at h
        | cons y ys =>
          intro k t c cs h
          simp only [runChain] at h
          cases h
          rfl
      rw [hstart rest (k + 1) (t + dur k) c cs hr]

/-! ## Claim C10: `currentActiveChatId` and the /send-file endpoint -/

/-- Character class of the mention regex in `parseMessage`
(src/index.js line 418): word characters and the CJK range
4e00 to 9fa5. -/
def isMentionChar (c : Char) : Bool :=
  c.isAlphanum || c = '_' || (0x4e00 ≤ c.toNat && c.toNat ≤ 0x9fa5)

/-- Embedding of the global regex replace removing at-mentions
(src/index.js line 418): an at sign followed by one or more mention
characters is deleted; the flag records whether the scanner is inside a
mention run. -/
def removeMentionsGo : Bool → List Char → List Char
  | _, [] => []
  | inMention, c :: rest =>
    if inMention && isMentionChar c then removeMentionsGo true rest
    else if c = '@' &&
        (match rest with | d :: _ => isMentionChar d | [] => false) then
      removeMentionsGo true rest
    else c :: removeMentionsGo false rest

/-- Removal of at-mentions from a message text. -/
def removeMentions (s : String) : String :=
  String.mk (removeMentionsGo false s.data)

/-- Embedding of the prefix replace for ask mode
(src/index.js line 426): drop the slash-ask keyword and the following
whitespace run, or the Chinese question prefix and any following
whitespace. -/
def stripModeAsk (s : String) : String :=
  if jsStartsWith s "/ask " then
    String.mk ((s.data.drop 4).dropWhile Char.isWhitespace)
  else if jsStartsWith s "问：" || jsStartsWith s "问:" then
    String.mk ((s.data.drop 2).dropWhile Char.isWhitespace)
  else s

/-- Embedding of the prefix replace for plan mode
(src/index.js line 429). -/
def stripModePlan (s : String) : String :=
  if jsStartsWith s "/plan " then
    String.mk ((s.data.drop 5).dropWhile Char.isWhitespace)
  else if jsStartsWith s "规划：" || jsStartsWith s "规划:" then
    String.mk ((s.data.drop 3).dropWhile Char.isWhitespace)
  else s

/-- Embedding of `parseMessage` (src/index.js lines 416-433): strip
mentions, trim, detect the mode keyword and return (mode, prompt). -/
def parseMessage (text : String) : String × String :=
  let cleanText := jsTrim (removeMentions text)
  if jsStartsWith cleanText "/ask " || jsStartsWith cleanText "问：" ||
      jsStartsWith cleanText "问:" then
    ("ask", stripModeAsk cleanText)
  else if jsStartsWith cleanText "/plan " || jsStartsWith cleanText "规划：" ||
      jsStartsWith cleanText "规划:" then
    ("plan", stripModePlan cleanText)
  else ("agent", cleanText)

/-- Inbound Feishu message as read by `handleMessage`
(src/index.js lines 852-878): id, chat id, type, creation time, and the
text field of the decoded content (absent when the content carries no
text). -/
structure Message where
  message_id : String
  chat_id : String
  message_type : String
  create_time : Nat
  content_text : Option String
deriving DecidableEq

/-- Process-wide mutable state that `handleMessage` touches and that the
/send-file endpoint reads: the dedupe cache `processedMessages`
(src/index.js line 90; its five-minute expiry is a timing effect outside
these claims and is not modelled) and `currentActiveChatId`
(src/index.js line 99).  The session and task maps are modified only on
early-return command paths and never affect these two fields. -/
structure ServerState where
  processedMessages : List String
  currentActiveChatId : Option String
deriving DecidableEq

/-- State at service startup: empty dedupe cache, no active chat. -/
def initialServerState : ServerState :=
  ⟨[], none⟩

/-- Embedding of the dispatch of `handleMessage`
(src/index.js lines 852-1095) up to the assignment
`currentActiveChatId = chatId`: historical messages are skipped before
dedupe; duplicates are skipped; non-text messages and every command path
(stop, new, session, help, screenshot, log, file, ls) return after the
dedupe insertion without touching `currentActiveChatId`; an empty prompt
returns too; otherwise the message is handled as a prompt and
`currentActiveChatId` is set to its chat id (line 1095).  The Boolean
result records whether the prompt path was reached. -/
def handleMessageModel (serviceStart : Nat) (st : ServerState)
    (m : Message) : ServerState × Bool :=
  if m.create_time < serviceStart then (st, false)
  else if st.processedMessages.contains m.message_id then (st, false)
  else
    let st1 : ServerState :=
      { st with processedMessages := m.message_id :: st.processedMessages }
    if m.message_type != "text" then (st1, false)
    else
      let text := m.content_text.getD ""
      if containsSub text "/stop" || text == "停止" || text == "终止" then
        (st1, false)
      else if containsSub text "/new" || text == "新会话" || text == "新对话" then
        (st1, false)
      else if containsSub text "/session" || text == "会话状态" then (st1, false)
      else if containsSub text "/help" || text == "帮助" then (st1, false)
      else if containsSub text "/screenshot" || text == "截图" ||
          text == "截屏" then (st1, false)
      else if jsStartsWith text "/log" || text == "日志" then (st1, false)
      else if jsStartsWith text "/file " || jsStartsWith text "发送文件 " ||
          jsStartsWith text "发文件 " then (st1, false)
      else if jsStartsWith text "/ls" || text == "文件列表" ||
          text == "列出文件" then (st1, false)
      else if (parseMessage text).2 == "" then (st1, false)
      else ({ st1 with currentActiveChatId := some m.chat_id }, true)

/-- Sequential processing of a list of inbound messages. -/
def processMessages (serviceStart : Nat) (st : ServerState)
    (ms : List Message) : ServerState :=
  ms.foldl (fun s m => (handleMessageModel serviceStart s m).1) st

/-- Chat ids of the messages that reached the prompt path, in order. -/
def promptChats (serviceStart : Nat) (st : ServerState) :
    List Message → List String
  | [] => []
  | m :: rest =>
    (if (handleMessageModel serviceStart st m).2 then [m.chat_id] else []) ++
      promptChats serviceStart (handleMessageModel serviceStart st m).1 rest

/-- Response of the /send-file endpoint. -/
inductive SendFileResponse where
  | badRequest (error : String)
  | sent (chatId : String) (filePath : String)
deriving DecidableEq

/-- Embedding of the POST /send-file handler of `startApiServer`
(src/index.js lines 1200-1228): a falsy `file_path` is a 400, a falsy
`currentActiveChatId` is a 400, otherwise the file is sent to
`currentActiveChatId`.  Delivery failures (the 500 path) concern the
transport, not the targeting, and are outside this claim. -/
def sendFileEndpoint (st : ServerState) (file_path : Option String) :
    SendFileResponse :=
  if !jsTruthyS file_path then SendFileResponse.badRequest "缺少 file_path 参数"
  else if !jsTruthyS st.currentActiveChatId then
    SendFileResponse.badRequest "没有活跃的聊天会话"
  else SendFileResponse.sent (st.currentActiveChatId.getD "")
    (file_path.getD "")

theorem handleMessageModel_activeChat (serviceStart : Nat)
    (st : ServerState) (m : Message) :
    (handleMessageModel serviceStart st m).1.currentActiveChatId =
      (if (handleMessageModel serviceStart st m).2 then some m.chat_id
       else st.currentActiveChatId) := by
  unfold handleMessageModel
  by_cases h1 : m.create_time < serviceStart
  · simp only [if_pos h1]; rfl
  · simp only [if_neg h1]
    by_cases h2 : st.processedMessages.contains m.message_id = true
    · simp only [if_pos h2]; rfl
    · simp only [if_neg h2]
      by_cases h3 : (m.message_type != "text") = true
      · simp only [if_pos h3]; rfl
      · simp only [if_neg h3]
        by_cases h4 : (containsSub (m.content_text.getD "") "/stop" || m.content_text.getD "" == "停止" || m.content_text.getD "" == "终止") = true
        · simp only [if_pos h4]; rfl
        · simp only [if_neg h4]
          by_cases h5 : (containsSub (m.content_text.getD "") "/new" || m.content_text.getD "" == "新会话" || m.content_text.getD "" == "新对话") = true
          · simp only [if_pos h5]; rfl
          · simp only [if_neg h5]
            by_cases h6 : (containsSub (m.content_text.getD "") "/session" || m.content_text.getD "" == "会话状态") = true
            · simp only [if_pos h6]; rfl
            · simp only [if_neg h6]
              by_cases h7 : (containsSub (m.content_text.getD "") "/help" || m.content_text.getD "" == "帮助") = true
              · simp only [if_pos h7]; rfl
              · simp only [if_neg h7]
                by_cases h8 : (containsSub (m.content_text.getD "") "/screenshot" || m.content_text.getD "" == "截图" || m.content_text.getD "" == "截屏") = true
                · simp only [if_pos h8]; rfl
                · simp only [if_neg h8]
                  by_cases h9 : (jsStartsWith (m.content_text.getD "") "/log" || m.content_text.getD "" == "日志") = true
                  · simp only [if_pos h9]; rfl
                  · simp only [if_neg h9]
                    by_cases h10 : (jsStartsWith (m.content_text.getD "") "/file " || jsStartsWith (m.content_text.getD "") "发送文件 " || jsStartsWith (m.content_text.getD "") "发文件 ") = true
                    · simp only [if_pos h10]; rfl
                    · simp only [if_neg h10]
                      by_cases h11 : (jsStartsWith (m.content_text.getD "") "/ls" || m.content_text.getD "" == "文件列表" || m.content_text.getD "" == "列出文件") = true
                      · simp only [if_pos h11]; rfl
                      · simp only [if_neg h11]
                        by_cases h12 : ((parseMessage (m.content_text.getD "")).2 == "") = true
                        · simp only [if_pos h12]; rfl
                        · simp only [if_neg h12]
                          rfl

theorem getLast?_append_match (a b : List String) :
    (a ++ b).getLast? =
      (match b.getLast? with
       | some c => some c
       | none => a.getLast?) := by
  cases b with
  | nil => simp
  | cons x bs =>
    rw [List.getLast?_append_of_ne_nil a (by simp)]
    have hex : ∃ c, (x :: bs).getLast? = some c := by
      induction bs generalizing x with
      | nil => exact ⟨x, rfl⟩
      | cons y ys ih => rw [List.getLast?_cons_cons]; exact ih y
    obtain ⟨c, hc⟩ := hex
    rw [hc]

theorem getLast?_mem_own (l : List String) (a : String)
    (h : l.getLast? = some a) : a ∈ l := by
  induction l with
  | nil => simp at h
  | cons x rest ih =>
    cases hr : rest with
    | nil => rw [hr] at h; simp at h; simp [h]
    | cons y ys =>
      rw [hr] at h
      rw [List.getLast?_cons_cons] at h
      have := ih (by rw [hr]; exact h)
      rw [hr] at this
      exact List.mem_cons_of_mem x this

theorem promptChats_mem (serviceStart : Nat) (ms : List Message)
    (st : ServerState) (x : String)
    (h : x ∈ promptChats serviceStart st ms) : ∃ m ∈ ms, x = m.chat_id := by
  induction ms generalizing st with
  | nil => simp [promptChats] at h
  | cons m rest ih =>
    simp only [promptChats, List.mem_append] at h
    rcases h with h | h
    · by_cases hp : (handleMessageModel serviceStart st m).2 = true
      · rw [if_pos hp] at h
        simp at h
        exact ⟨m, by simp, h⟩
      · rw [if_neg hp] at h
        simp at h
    · obtain ⟨m', hm', hx⟩ :=
        ih (handleMessageModel serviceStart st m).1 h
      exact ⟨m', by simp [hm'], hx⟩

theorem processMessages_activeChat (serviceStart : Nat) (ms : List Message)
    (st : ServerState) :
    (processMessages serviceStart st ms).currentActiveChatId =
      (match (promptChats serviceStart st ms).getLast? with
       | some c => some c
       | none => st.currentActiveChatId) := by
  induction ms generalizing st with
  | nil => rfl
  | cons m rest ih =>
    simp only [processMessages, List.foldl_cons, promptChats]
    rw [show (rest.foldl (fun s m => (handleMessageModel serviceStart s m).1)
        (handleMessageModel serviceStart st m).1) =
      processMessages serviceStart
        (handleMessageModel serviceStart st m).1 rest from rfl]
    rw [ih]
    rw [getLast?_append_match]
    have hact := handleMessageModel_activeChat serviceStart st m
    by_cases hp : (handleMessageModel serviceStart st m).2 = true
    · rw [if_pos hp] at hact
      cases hl : (promptChats serviceStart
          (handleMessageModel serviceStart st m).1 rest).getLast? with
      | some c => simp [hp]
      | none => simp [hp, hact]
    · rw [if_neg hp] at hact
      have hp' : (handleMessageModel serviceStart st m).2 = false := by
        simpa using hp
      cases hl : (promptChats serviceStart
          (handleMessageModel serviceStart st m).1 rest).getLast? with
      | some c => simp [hp']
      | none => simp [hp', hact]

/-- Claim C10: the /send-file target is the single process-wide
`currentActiveChatId`: after any interleaving of inbound messages from
any channels, it equals the chat id of the most recent message that
reached the prompt path (it is never cleared, so later non-prompt
traffic and task completion leave it intact); a request carrying a file
path is answered 400 (no active chat session) exactly when no prompt has
been handled since startup, and otherwise the file goes to that most
recent prompt chat. -/
theorem send_file_targets_most_recent_prompt_chat (serviceStart : Nat)
    (ms : List Message) (fp : String) (hfp : fp ≠ "")
    (hchat : ∀ m ∈ ms, m.chat_id ≠ "") :
    (processMessages serviceStart initialServerState ms).currentActiveChatId =
      (promptChats serviceStart initialServerState ms).getLast?
    ∧ ((promptChats serviceStart initialServerState ms).getLast? = none →
      sendFileEndpoint (processMessages serviceStart initialServerState ms)
        (some fp) = SendFileResponse.badRequest "没有活跃的聊天会话")
    ∧ (∀ c, (promptChats serviceStart initialServerState ms).getLast? = some c →
      sendFileEndpoint (processMessages serviceStart initialServerState ms)
        (some fp) = SendFileResponse.sent c fp) := by
  have hmain := processMessages_activeChat serviceStart ms initialServerState
  have hfin : (processMessages serviceStart initialServerState ms).currentActiveChatId =
      (promptChats serviceStart initialServerState ms).getLast? := by
    rw [hmain]
    cases (promptChats serviceStart initialServerState ms).getLast? <;> rfl
  have hfpb : jsTruthyS (some fp) = true := by simpa [jsTruthyS] using hfp
  refine ⟨hfin, ?_, ?_⟩
  · intro hnone
    unfold sendFileEndpoint
    rw [hfin, hnone]
    simp [jsTruthyS, hfp]
  · intro c hc
    have hcne : c ≠ "" := by
      have hmem := getLast?_mem_own _ c hc
      obtain ⟨m, hm, hx⟩ := promptChats_mem serviceStart ms initialServerState c hmem
      rw [hx]
      exact hchat m hm
    have hcb : jsTruthyS (some c) = true := by simpa [jsTruthyS] using hcne
    unfold sendFileEndpoint
    rw [hfin, hc]
    simp [jsTruthyS, hfp, hcne]

/-- Witness for C10: one prompt message from chat1, then a file request. -/
theorem send_file_targets_most_recent_prompt_chat_witness :
    sendFileEndpoint (processMessages 5 initialServerState
      [⟨"id1", "chat1", "text", 10, some "hello"⟩]) (some "a.txt") =
    SendFileResponse.sent "chat1" "a.txt" :=
  (send_file_targets_most_recent_prompt_chat 5
    [⟨"id1", "chat1", "text", 10, some "hello"⟩] "a.txt" (by decide)
    (by decide)).2.2 "chat1" (by decide)
